import Mathlib

/-!
Verification of the factcheck pipeline (packages/factcheck).

This file gives a shallow embedding of the two algorithmic components of the
repository, translated from the Python source:

* the pattern-based claim extractor
  (src/factcheck/extractors/patterns.py: PatternExtractor), and
* the verification engine
  (src/factcheck/verification/service.py: VerificationService,
   src/factcheck/verification/cache.py: VerificationCache,
   src/factcheck/verification/google_factcheck.py: GoogleFactCheckClient),

followed by theorems settling the spec claims about them.

Modelling conventions:

* Python strings are modelled as List Char; slicing, strip and lower are
  modelled over ASCII (all rule patterns and rating keywords are ASCII).
* Python int / float arithmetic on counts and confidences is modelled over
  Nat / Int / Rat; every division appearing in the source divides an integer
  by a list length, and the claims are about those exact quotients.
* The regex scan of PatternExtractor.extract (pattern.finditer over the fixed
  rule table) is abstracted as an explicit list of PatternMatch values passed
  to the extractor; ValidMatch states the properties every finditer match has
  (its span lies inside the text and the matched substring is the slice of the
  text at that span).  The rating-classification regexes of
  VerificationService (word-boundary word searches with lookbehinds) are
  implemented directly, character by character.
* uuid.uuid4() is modelled as a stream of identifier strings, one per created
  claim; datetime.now(...) as an explicit timestamp argument.
-/

namespace FactCheck

/-! ## Character classes and Python string primitives -/

/-- The sentence terminators used by the extractor: the Python string ".!?\n". -/
def isSentenceEnding (c : Char) : Bool :=
  c = '.' || c = '!' || c = '?' || c = '\n'

/-- ASCII model of Python str.strip() whitespace and of the regex class \s. -/
def isPySpace (c : Char) : Bool :=
  c = ' ' || c = '\t' || c = '\n' || c = '\r' || c = '\x0b' || c = '\x0c'

/-- ASCII model of the regex word-character class \w. -/
def isWordChar (c : Char) : Bool :=
  c.isAlphanum || c = '_'

/-- Python slice t[a:b] (indices clamp to the list, as in Python). -/
def sliceList (s : List Char) (a b : Nat) : List Char :=
  (s.drop a).take (b - a)

/-- Python str.strip(): drop leading and trailing whitespace. -/
def pyStrip (s : List Char) : List Char :=
  ((s.dropWhile isPySpace).reverse.dropWhile isPySpace).reverse

/-- Python str.lower(), restricted to ASCII. -/
def pyLower (s : List Char) : List Char :=
  s.map Char.toLower

/-! ## Extractor data model (src/factcheck/models.py, patterns.py) -/

/-- ClaimType (models.py): closed enumeration of claim categories. -/
inductive ClaimType where
  | factual
  | statistical
  | attribution
  | temporal
  | comparative
  deriving DecidableEq, Repr

/-- SourceOffset (models.py): half-open character span.  The second field is
named stop because end is a reserved word in Lean. -/
structure SourceOffset where
  start : Nat
  stop : Nat
  deriving DecidableEq, Repr

/-- Claim (models.py).  text is the claim sentence, confidence the extraction
confidence.  The id field holds the uuid4 string. -/
structure Claim where
  id : String
  text : List Char
  type : ClaimType
  confidence : ℚ
  source_offset : Option SourceOffset
  deriving DecidableEq, Repr

/-- PatternMatch (patterns.py): one finditer match, with its span, matched
substring and the ClaimType of the rule that produced it. -/
structure PatternMatch where
  start : Nat
  stop : Nat
  match_text : List Char
  claim_type : ClaimType
  deriving DecidableEq, Repr

/-- The guarantees re.finditer gives about every match object: the span lies
inside the text and the matched substring (group 0) is the slice of the text at
that span.  The regex engine itself is abstracted behind this interface. -/
def ValidMatch (text : List Char) (m : PatternMatch) : Prop :=
  m.start ≤ m.stop ∧ m.stop ≤ text.length ∧ m.match_text = sliceList text m.start m.stop

instance (text : List Char) (m : PatternMatch) : Decidable (ValidMatch text m) := by
  unfold ValidMatch; infer_instance

/-- PatternExtractor.BASE_CONFIDENCE = 0.6, as the reduced rational 3 / 5
(given by numerator and denominator so that equality of claims is kernel
computable; BASE_CONFIDENCE_eq_div proves it equals 3 / 5). -/
def BASE_CONFIDENCE : ℚ := ⟨3, 5, by decide, by decide⟩

/-! ## Sentence expansion (patterns.py lines 134-155) -/

/-- PatternExtractor._find_sentence_start: scan left from pos to the previous
sentence terminator (exclusive) or the start of the text. -/
def findSentenceStart (text : List Char) : Nat → Nat
  | 0 => 0
  | s + 1 => if isSentenceEnding (text.getD s ' ') then s + 1 else findSentenceStart text s

/-- The while loop of PatternExtractor._find_sentence_end, with the number of
remaining positions made an explicit structural argument so that it computes
by kernel reduction; the wrapper below supplies text.length - pos, which
bounds the iterations of the source loop. -/
def findSentenceEndGo (text : List Char) : Nat → Nat → Nat
  | 0, pos => pos
  | fuel + 1, pos =>
    if h : pos < text.length then
      if isSentenceEnding (text.get ⟨pos, h⟩) then pos + 1
      else findSentenceEndGo text fuel (pos + 1)
    else pos

/-- PatternExtractor._find_sentence_end: scan right from pos to the next
sentence terminator (inclusive) or the end of the text. -/
def findSentenceEnd (text : List Char) (pos : Nat) : Nat :=
  findSentenceEndGo text (text.length - pos) pos

/-! ## Match-to-claim conversion (patterns.py lines 101-132) -/

/-- Loop body of PatternExtractor._matches_to_claims.  seen is the
seen_sentences set (as a list), k counts the claims created so far and indexes
the uuid stream ids. -/
def matchesToClaimsAux (ids : Nat → String) (text : List Char) :
    List PatternMatch → List (List Char) → Nat → List Claim
  | [], _, _ => []
  | m :: rest, seen, k =>
    let sStart := findSentenceStart text m.start
    let sEnd := findSentenceEnd text m.stop
    let sentence := pyStrip (sliceList text sStart sEnd)
    if seen.contains sentence then
      matchesToClaimsAux ids text rest seen k
    else if sentence.length < 10 || sentence.length > 500 then
      matchesToClaimsAux ids text rest (sentence :: seen) k
    else
      { id := ids k, text := sentence, type := m.claim_type,
        confidence := BASE_CONFIDENCE,
        source_offset := some ⟨sStart, sEnd⟩ } ::
        matchesToClaimsAux ids text rest (sentence :: seen) (k + 1)

/-- PatternExtractor._matches_to_claims: expand every match to its enclosing
sentence, drop sentences already seen and sentences shorter than 10 or longer
than 500 characters after stripping, and build the Claim records. -/
def matchesToClaims (ids : Nat → String) (text : List Char)
    (ms : List PatternMatch) : List Claim :=
  matchesToClaimsAux ids text ms [] 0

/-! ## Deduplication (patterns.py lines 157-201) -/

/-- PatternExtractor._claims_overlap: two claims overlap significantly when
their spans intersect in more than half of the shorter span (the Python
comparison overlap_len > 0.5 * min(len1, len2), computed here over Int).
Claims without a span fall back to text equality. -/
def claimsOverlap (c1 c2 : Claim) : Bool :=
  match c1.source_offset, c2.source_offset with
  | some o1, some o2 =>
    let os : Int := max o1.start o2.start
    let oe : Int := min o1.stop o2.stop
    if oe ≤ os then false
    else
      2 * (oe - os) > min ((o1.stop : Int) - o1.start) ((o2.stop : Int) - o2.start)
  | _, _ => c1.text = c2.text

/-- The sort key used by _deduplicate_claims:
c.source_offset.start if c.source_offset else 0. -/
def dedupKey (c : Claim) : Nat :=
  match c.source_offset with
  | some o => o.start
  | none => 0

/-- Stable insertion into a list sorted by dedupKey: the new element goes
before the first element with a key at least as large, which preserves the
original order of equal keys exactly as Python sorted does. -/
def insertByKey (c : Claim) : List Claim → List Claim
  | [] => [c]
  | x :: xs => if dedupKey c ≤ dedupKey x then c :: x :: xs else x :: insertByKey c xs

/-- Model of Python sorted(claims, key=...): a stable sort by dedupKey. -/
def sortClaims (claims : List Claim) : List Claim :=
  claims.foldr insertByKey []

/-- Loop of _deduplicate_claims: keep a claim only when it does not overlap
any already-kept claim. -/
def dedupGo : List Claim → List Claim → List Claim
  | [], acc => acc
  | c :: rest, acc =>
    if acc.any (fun e => claimsOverlap c e) then dedupGo rest acc
    else dedupGo rest (acc ++ [c])

/-- PatternExtractor._deduplicate_claims: sort by span start, then keep
first-seen claims that do not significantly overlap a kept claim. -/
def deduplicateClaims (claims : List Claim) : List Claim :=
  dedupGo (sortClaims claims) []

/-- PatternExtractor.extract with the regex scan abstracted: matches is the
list of PatternMatch values the finditer scan over the fixed rule table
produces on text (see ValidMatch), and ids supplies the uuid4 strings. -/
def extractFromMatches (ids : Nat → String) (text : List Char)
    (ms : List PatternMatch) : List Claim :=
  deduplicateClaims (matchesToClaims ids text ms)

/-! ## Rating classification (service.py lines 17-27 and 108-114)

The TRUE_PATTERNS / FALSE_PATTERNS regexes are word-boundary searches over the
lower-cased rating, with four negative lookbehinds on the verified pattern.
They are implemented here directly over List Char. -/

/-- Whether the character at index i is a word character (false past the end,
matching how \b treats the ends of the string). -/
def isWordCharAt (s : List Char) (i : Nat) : Bool :=
  match s.get? i with
  | some c => isWordChar c
  | none => false

/-- The regex word boundary \b at position i: exactly one of the characters
around the position is a word character. -/
def isBoundary (s : List Char) (i : Nat) : Bool :=
  (decide (i ≠ 0) && isWordCharAt s (i - 1)) != isWordCharAt s i

/-- Match of the regex \b<w>\b at position i of s (w matched literally). -/
def matchWordAt (s w : List Char) (i : Nat) : Bool :=
  sliceList s i (i + w.length) == w && isBoundary s i && isBoundary s (i + w.length)

/-- re.search of \b<w>\b anywhere in s. -/
def containsWord (w s : List Char) : Bool :=
  (List.range (s.length + 1)).any (fun i => matchWordAt s w i)

/-- Negative-lookbehind body (?<!<w>\s) at position i: the w.length + 1
characters ending at i are w followed by one whitespace character. -/
def negWordBefore (w s : List Char) (i : Nat) : Bool :=
  w.length + 1 ≤ i && sliceList s (i - (w.length + 1)) (i - 1) == w &&
    (match s.get? (i - 1) with
     | some c => isPySpace c
     | none => false)

/-- Negative-lookbehind body (?<!<w>) at position i: the w.length characters
ending at i are exactly w. -/
def litBefore (w s : List Char) (i : Nat) : Bool :=
  w.length ≤ i && sliceList s (i - w.length) i == w

/-- Match at position i of the pattern
(?<!not\s)(?<!never\s)(?<!un)(?<!un-)\bverified\b. -/
def verifiedMatchAt (s : List Char) (i : Nat) : Bool :=
  matchWordAt s "verified".toList i &&
    !negWordBefore "not".toList s i && !negWordBefore "never".toList s i &&
    !litBefore "un".toList s i && !litBefore "un-".toList s i

/-- re.search of the guarded verified pattern anywhere in s. -/
def searchVerifiedPattern (s : List Char) : Bool :=
  (List.range (s.length + 1)).any (fun i => verifiedMatchAt s i)

/-- any(re.search(p, rating) for p in TRUE_PATTERNS) on the lower-cased
rating. -/
def matchesTruePatterns (rating : List Char) : Bool :=
  containsWord "true".toList rating || containsWord "correct".toList rating ||
    containsWord "accurate".toList rating || containsWord "mostly true".toList rating ||
    searchVerifiedPattern rating

/-- any(re.search(p, rating) for p in FALSE_PATTERNS) on the lower-cased
rating. -/
def matchesFalsePatterns (rating : List Char) : Bool :=
  containsWord "false".toList rating || containsWord "incorrect".toList rating ||
    containsWord "inaccurate".toList rating || containsWord "mostly false".toList rating ||
    containsWord "pants on fire".toList rating || containsWord "disputed".toList rating ||
    containsWord "misleading".toList rating

/-! ## Verification data model (models.py) -/

/-- VerificationStatus (models.py). -/
inductive VerificationStatus where
  | pending
  | verified
  | disputed
  | unverified
  | error
  deriving DecidableEq, Repr

/-- VerificationSource (models.py). -/
structure VerificationSource where
  name : String
  url : String
  verdict : String
  published_date : Option String
  deriving DecidableEq, Repr

/-- VerificationResult (models.py).  confidence is the exact rational value of
the Python float expression that produces it. -/
structure VerificationResult where
  status : VerificationStatus
  sources : List VerificationSource
  confidence : ℚ
  verified_at : String
  deriving DecidableEq, Repr

/-! ## Aggregation (service.py lines 91-131) -/

/-- Classification of one source by the loop in _aggregate_results:
some true when the lower-cased verdict matches a TRUE pattern, some false when
it matches a FALSE pattern but no TRUE pattern, none otherwise. -/
def sourceClass (src : VerificationSource) : Option Bool :=
  let r := pyLower src.verdict.toList
  if matchesTruePatterns r then some true
  else if matchesFalsePatterns r then some false
  else none

/-- true_count after the classification loop. -/
def trueCount (sources : List VerificationSource) : Nat :=
  sources.countP (fun s => sourceClass s == some true)

/-- false_count after the classification loop. -/
def falseCount (sources : List VerificationSource) : Nat :=
  sources.countP (fun s => sourceClass s == some false)

/-- VerificationService._aggregate_results. -/
def aggregateResults (sources : List VerificationSource) : VerificationStatus × ℚ :=
  if sources.isEmpty then (.unverified, 0)
  else
    let tc := trueCount sources
    let fc := falseCount sources
    if tc + fc = 0 then (.unverified, 3 / 10)
    else
      let confidence : ℚ := (max tc fc : ℚ) / sources.length
      if tc > fc then (.verified, confidence)
      else if fc > tc then (.disputed, confidence)
      else (.unverified, 1 / 2)

/-! ## Fact-check client (google_factcheck.py) -/

/-- FactCheckResult (google_factcheck.py). -/
structure FactCheckResult where
  publisher_name : String
  url : String
  rating : String
  published_date : Option String
  deriving DecidableEq, Repr

/-- The errors GoogleFactCheckClient.search can raise: an httpx.HTTPStatusError
carrying the response status, a transport-level httpx.RequestError, or an
httpx.DecodingError from JSON parsing. -/
inductive ClientError where
  | httpStatus (code : Nat)
  | transport
  | decoding
  deriving DecidableEq, Repr

/-- One environment response to one HTTP attempt: either a response with a
status code and, for a decodable body, the parsed result list (none models a
body response.json() rejects; _parse_response itself is total, so a decodable
body is modelled by its parsed list), or a transport failure
(httpx.RequestError). -/
inductive ApiResponse where
  | status (code : Nat) (body : Option (List FactCheckResult))
  | transportError
  deriving DecidableEq, Repr

/-- The observable trace of one search call: its outcome, how many HTTP
attempts were made, and the sequence of backoff sleeps in seconds. -/
structure SearchTrace where
  outcome : Except ClientError (List FactCheckResult)
  attempts : Nat
  sleeps : List Nat
  deriving Repr

/-- The retry loop of GoogleFactCheckClient.search (for attempt in
range(MAX_RETRIES)).  A 429 or a 5xx status retries with backoff, any other
non-2xx status raises immediately (httpx raise_for_status raises for every
non-2xx code and the code re-raises when status_code < 500), an undecodable
2xx body and a transport failure retry with backoff, and a decodable 2xx body
returns the parsed list.  When the loop exhausts, the last recorded error is
raised (the final return [] is reachable only with no attempts). -/
def searchGo (responses : Nat → ApiResponse) :
    Nat → Nat → Nat → Option ClientError → List Nat → SearchTrace
  | 0, attempt, _, lastError, sleeps =>
    match lastError with
    | some e => ⟨.error e, attempt, sleeps⟩
    | none => ⟨.ok [], attempt, sleeps⟩
  | fuel + 1, attempt, backoff, _, sleeps =>
    match responses attempt with
    | .transportError =>
      searchGo responses fuel (attempt + 1) (backoff * 2) (some .transport) (sleeps ++ [backoff])
    | .status code body =>
      if code = 429 then
        searchGo responses fuel (attempt + 1) (backoff * 2) (some (.httpStatus 429))
          (sleeps ++ [backoff])
      else if 500 ≤ code then
        searchGo responses fuel (attempt + 1) (backoff * 2) (some (.httpStatus code))
          (sleeps ++ [backoff])
      else if 200 ≤ code ∧ code < 300 then
        match body with
        | none =>
          searchGo responses fuel (attempt + 1) (backoff * 2) (some .decoding)
            (sleeps ++ [backoff])
        | some rs => ⟨.ok rs, attempt + 1, sleeps⟩
      else ⟨.error (.httpStatus code), attempt + 1, sleeps⟩

/-- GoogleFactCheckClient.MAX_RETRIES. -/
def MAX_RETRIES : Nat := 3

/-- GoogleFactCheckClient.INITIAL_BACKOFF, in whole seconds (1.0 in the
source; every backoff value is the integer 2 ^ k). -/
def INITIAL_BACKOFF : Nat := 1

/-- GoogleFactCheckClient.search: soft-disabled without an API key (self.api_key
is None or the empty string), otherwise the retry loop over the environment's
responses. -/
def search (apiKey : Option String) (responses : Nat → ApiResponse) : SearchTrace :=
  if apiKey.getD "" = "" then ⟨.ok [], 0, []⟩
  else searchGo responses MAX_RETRIES 0 INITIAL_BACKOFF none []

/-! ## Cache (cache.py)

The TTLCache value store is modelled as an association list of
key / result / insertion-time triples; an entry is visible to get while
now < insertion time + ttl.  sha256-and-truncate key derivation is modelled by
an arbitrary digest function on the normalized text (every claim about the
cache holds for every such function); the maxsize LRU bound of TTLCache is not
modelled, as all cache claims are conditioned on the entry still being
present. -/

/-- VerificationCache state: TTL in seconds plus the live entries. -/
structure VerificationCache where
  ttl : Nat
  entries : List (String × VerificationResult × Nat)
  deriving DecidableEq, Repr

/-- The normalization in VerificationCache._make_key:
claim_text.strip().lower(). -/
def normalizeClaimText (claimText : String) : List Char :=
  pyLower (pyStrip claimText.toList)

/-- VerificationCache._make_key with the truncated sha256 hex digest abstracted
as digest. -/
def makeKey (digest : List Char → String) (claimText : String) : String :=
  digest (normalizeClaimText claimText)

/-- VerificationCache.get at time now. -/
def cacheGet (digest : List Char → String) (now : Nat) (cache : VerificationCache)
    (claimText : String) : Option VerificationResult :=
  match cache.entries.lookup (makeKey digest claimText) with
  | some (r, t) => if now < t + cache.ttl then some r else none
  | none => none

/-- VerificationCache.set at time now.  The new entry is prepended and shadows
any older entry under the same key in lookup. -/
def cacheSet (digest : List Char → String) (now : Nat) (cache : VerificationCache)
    (claimText : String) (result : VerificationResult) : VerificationCache :=
  { cache with entries := (makeKey digest claimText, result, now) :: cache.entries }

/-! ## Verification engine (service.py lines 43-89 and 133-140) -/

/-- The VerificationSource built from one FactCheckResult in verify. -/
def toSource (fc : FactCheckResult) : VerificationSource :=
  ⟨fc.publisher_name, fc.url, fc.rating, fc.published_date⟩

/-- VerificationService._create_error_result. -/
def createErrorResult (nowIso : String) : VerificationResult :=
  ⟨.error, [], 0, nowIso⟩

/-- The outcome of one verify call: the returned result, the cache afterwards,
and whether the external client was invoked. -/
structure VerifyOutput where
  result : VerificationResult
  cache : VerificationCache
  queried : Bool
  deriving DecidableEq, Repr

/-- VerificationService.verify.  now is the clock reading (seconds, for the
cache), nowIso the datetime.now(timezone.utc).isoformat() string, and
clientOutcome what await google_client.search(claim_text) would do: return a
list or raise. -/
def verify (digest : List Char → String) (now : Nat) (nowIso : String)
    (clientOutcome : Except ClientError (List FactCheckResult))
    (cache : VerificationCache) (claimText : String) : VerifyOutput :=
  match cacheGet digest now cache claimText with
  | some cached => ⟨cached, cache, false⟩
  | none =>
    match clientOutcome with
    | .error _ => ⟨createErrorResult nowIso, cache, true⟩
    | .ok factChecks =>
      let sources := factChecks.map toSource
      let (status, confidence) := aggregateResults sources
      let result : VerificationResult := ⟨status, sources, confidence, nowIso⟩
      ⟨result, cacheSet digest now cache claimText result, true⟩

/-! ## Further definitions used by the claim statements -/

/-- The affirming condition in the words of the spec: the rating contains
true, correct, accurate or mostly true as a whole word, or contains verified
as a whole word at a position that is preceded neither by the negations not or
never (followed by whitespace) nor by the prefix un-. -/
def specAffirming (rating : List Char) : Bool :=
  containsWord "true".toList rating || containsWord "correct".toList rating ||
    containsWord "accurate".toList rating || containsWord "mostly true".toList rating ||
    (List.range (rating.length + 1)).any (fun i =>
      matchWordAt rating "verified".toList i && !negWordBefore "not".toList rating i &&
        !negWordBefore "never".toList rating i && !litBefore "un-".toList rating i)

/-- The responses the retry loop retries on: HTTP 429, HTTP 5xx, a transport
failure, or a 2xx response whose body fails to decode. -/
def retryableResponse : ApiResponse → Bool
  | .transportError => true
  | .status code body =>
    code = 429 || 500 ≤ code || (200 ≤ code && code < 300 && body.isNone)

/-- The ClientError the loop records or raises for a response. -/
def responseError : ApiResponse → ClientError
  | .transportError => .transport
  | .status code _ =>
    if code = 429 then .httpStatus 429
    else if 500 ≤ code then .httpStatus code
    else if 200 ≤ code ∧ code < 300 then .decoding
    else .httpStatus code

/-- The stripped enclosing sentence computed for a match. -/
def sentenceOf (text : List Char) (m : PatternMatch) : List Char :=
  pyStrip (sliceList text (findSentenceStart text m.start) (findSentenceEnd text m.stop))

/-- The 501-character input refuting the raw-slice upper bound of C3: three
leading spaces, the cue located in, 486 filler characters and a final
period.  The whole text is one sentence region, so the claim's span is the
full 501 characters while its stripped sentence has 498. -/
def C3cexText : List Char :=
  ("   located in " ++ String.mk (List.replicate 486 'q') ++ ".").toList

/-- The single match the factual rule located-in produces on C3cexText. -/
def C3cexMatches : List PatternMatch :=
  [⟨3, 13, "located in".toList, ClaimType.factual⟩]

/-- A claim without its uuid: the id-independent content. -/
structure ClaimData where
  text : List Char
  type : ClaimType
  confidence : ℚ
  source_offset : Option SourceOffset
  deriving DecidableEq, Repr

/-- Erase the uuid4-generated id of a claim. -/
def dropId (c : Claim) : ClaimData :=
  ⟨c.text, c.type, c.confidence, c.source_offset⟩

/-! ## General list helpers -/

/-- any is determined by the pointwise values of its predicate. -/
theorem any_congr {α : Type} (l : List α) (p q : α → Bool)
    (h : ∀ x ∈ l, p x = q x) : l.any p = l.any q := by
  induction l with
  | nil => rfl
  | cons a t ih =>
    simp only [List.any_cons, h a (by simp), ih (fun x hx => h x (by simp [hx]))]

/-- If a slice of s equals w, each character of w reads back from s at the
corresponding absolute index. -/
theorem getElem?_of_slice_eq {s w : List Char} {a b : Nat} (h : sliceList s a b = w)
    {k : Nat} (hk : k < w.length) : s[a + k]? = some w[k] := by
  have hlen : w.length ≤ b - a := by
    subst h
    simp only [sliceList]
    exact List.length_take_le (b - a) (s.drop a)
  have h1 : (s.drop a)[k]? = s[a + k]? := List.getElem?_drop s a k
  have h2 : ((s.drop a).take (b - a))[k]? = (s.drop a)[k]? := by
    rw [List.getElem?_take, if_pos (lt_of_lt_of_le hk hlen)]
  rw [← h1, ← h2]
  show (sliceList s a b)[k]? = _
  rw [h]
  exact List.getElem?_eq_getElem hk

/-! ## Claim C5: affirming classification -/

/-- In any match of \bverified\b the (?<!un) lookbehind is vacuous: a
character directly before the match would be the word character n, which
contradicts the leading word boundary of the match. -/
theorem litBefore_un_false_of_matchWordAt {s : List Char} {i : Nat}
    (h : matchWordAt s "verified".toList i = true) :
    litBefore "un".toList s i = false := by
  rw [Bool.eq_false_iff]
  intro hun
  unfold litBefore at hun
  rw [Bool.and_eq_true, decide_eq_true_iff] at hun
  obtain ⟨hle, hslice⟩ := hun
  rw [show ("un".toList).length = 2 from by decide] at hle
  rw [beq_iff_eq] at hslice
  have hn : s[(i - 2) + 1]? = some 'n' := by
    have := getElem?_of_slice_eq hslice (k := 1) (by decide)
    simpa using this
  have hword1 : isWordCharAt s (i - 1) = true := by
    unfold isWordCharAt
    rw [List.get?_eq_getElem?]
    have : (i - 2) + 1 = i - 1 := by omega
    rw [← this, hn]
    decide
  unfold matchWordAt at h
  rw [Bool.and_eq_true, Bool.and_eq_true] at h
  obtain ⟨⟨hsl, hb1⟩, hb2⟩ := h
  rw [beq_iff_eq] at hsl
  have hv : s[i + 0]? = some 'v' := by
    have := getElem?_of_slice_eq hsl (k := 0) (by decide)
    simpa using this
  have hword0 : isWordCharAt s i = true := by
    unfold isWordCharAt
    rw [List.get?_eq_getElem?]
    simp only [Nat.add_zero] at hv
    rw [hv]
    decide
  have hi0 : i ≠ 0 := by omega
  unfold isBoundary at hb1
  rw [hword0, hword1, decide_eq_true hi0] at hb1
  exact absurd hb1 (by decide)

/-- Pointwise form of the guarded verified pattern without the redundant
(?<!un) lookbehind. -/
theorem verifiedMatchAt_eq_no_un (s : List Char) (i : Nat) :
    verifiedMatchAt s i =
      (matchWordAt s "verified".toList i && !negWordBefore "not".toList s i &&
        !negWordBefore "never".toList s i && !litBefore "un-".toList s i) := by
  unfold verifiedMatchAt
  cases hm : matchWordAt s "verified".toList i
  · simp
  · rw [litBefore_un_false_of_matchWordAt hm]
    simp

/-- C5: the classification counts a rating as affirming exactly when the spec
condition holds of its lower-cased text (whole-word containment of the five
cues, verified not negated and not un-prefixed); in particular the ratings
Unverified and Not Verified are never affirming (they classify as neutral),
while Verified is. -/
theorem C5_affirming_whole_words (src : VerificationSource) :
    matchesTruePatterns (pyLower src.verdict.toList) =
      specAffirming (pyLower src.verdict.toList) ∧
    sourceClass ⟨"PolitiFact", "u", "Unverified", none⟩ = none ∧
    sourceClass ⟨"PolitiFact", "u", "Not Verified", none⟩ = none ∧
    sourceClass ⟨"PolitiFact", "u", "Verified", none⟩ = some true := by
  refine ⟨?_, by decide, by decide, by decide⟩
  unfold matchesTruePatterns specAffirming searchVerifiedPattern
  congr 1
  exact any_congr _ _ _ (fun i _ => verifiedMatchAt_eq_no_un _ i)

/-! ## Claims about aggregation (C1, C2) -/

/-- C1: for a non-empty source list with affirming count a and disputing
count d, a ≠ d, aggregation returns status verified with confidence a / N when
a > d and status disputed with confidence d / N when d > a, where N is the
total number of sources; the confidence always equals max(a, d) / N. -/
theorem C1_majority_confidence (sources : List VerificationSource)
    (hne : sources ≠ []) (hdiff : trueCount sources ≠ falseCount sources) :
    (falseCount sources < trueCount sources →
      aggregateResults sources =
        (VerificationStatus.verified, (trueCount sources : ℚ) / sources.length)) ∧
    (trueCount sources < falseCount sources →
      aggregateResults sources =
        (VerificationStatus.disputed, (falseCount sources : ℚ) / sources.length)) ∧
    (aggregateResults sources).2 =
      (max (trueCount sources) (falseCount sources) : ℚ) / sources.length := by
  have hemp : sources.isEmpty = false := by
    cases sources with
    | nil => exact absurd rfl hne
    | cons a l => rfl
  have hsum : trueCount sources + falseCount sources ≠ 0 := by omega
  unfold aggregateResults
  rw [hemp]
  simp only [Bool.false_eq_true, if_false, if_neg hsum]
  refine ⟨?_, ?_, ?_⟩
  · intro hlt
    rw [if_pos hlt]
    congr 1
    rw [max_eq_left (by exact_mod_cast Nat.le_of_lt hlt)]
  · intro hlt
    rw [if_neg (by omega : ¬ falseCount sources < trueCount sources), if_pos hlt]
    congr 1
    rw [max_eq_right (by exact_mod_cast Nat.le_of_lt hlt)]
  · rcases Nat.lt_or_ge (falseCount sources) (trueCount sources) with h | h
    · rw [if_pos h]
    · have h2 : trueCount sources < falseCount sources := by omega
      rw [if_neg (by omega : ¬ falseCount sources < trueCount sources), if_pos h2]

/-- Witness for C1: sources rated True, False, True give status verified with
confidence 2 / 3. -/
theorem C1_majority_confidence_witness :
    aggregateResults
        [⟨"PolitiFact", "u1", "True", none⟩, ⟨"Snopes", "u2", "False", none⟩,
          ⟨"APFactCheck", "u3", "True", none⟩] =
      (VerificationStatus.verified, 2 / 3) := by
  have h := (C1_majority_confidence
      [⟨"PolitiFact", "u1", "True", none⟩, ⟨"Snopes", "u2", "False", none⟩,
        ⟨"APFactCheck", "u3", "True", none⟩]
      (by decide) (by decide)).1 (by decide)
  rw [h]
  norm_num [show trueCount
      [⟨"PolitiFact", "u1", "True", none⟩, ⟨"Snopes", "u2", "False", none⟩,
        ⟨"APFactCheck", "u3", "True", none⟩] = 2 from by decide]

/-- C2: aggregation returns status unverified in exactly three cases, each
with a fixed confidence: empty source list (confidence 0.0), sources present
but none classified (confidence 0.3), and equal nonzero affirming and
disputing counts (confidence 0.5). -/
theorem C2_unverified_cases (sources : List VerificationSource) :
    (sources = [] → aggregateResults sources = (VerificationStatus.unverified, 0)) ∧
    (sources ≠ [] → trueCount sources + falseCount sources = 0 →
      aggregateResults sources = (VerificationStatus.unverified, 3 / 10)) ∧
    (trueCount sources = falseCount sources → trueCount sources ≠ 0 →
      aggregateResults sources = (VerificationStatus.unverified, 1 / 2)) ∧
    ((aggregateResults sources).1 = VerificationStatus.unverified →
      sources = [] ∨ trueCount sources + falseCount sources = 0 ∨
        (trueCount sources = falseCount sources ∧ trueCount sources ≠ 0)) := by
  refine ⟨?_, ?_, ?_, ?_⟩
  · rintro rfl
    rfl
  · intro hne hz
    have hemp : sources.isEmpty = false := by
      cases sources with
      | nil => exact absurd rfl hne
      | cons a l => rfl
    unfold aggregateResults
    rw [hemp]
    simp only [Bool.false_eq_true, if_false, if_pos hz]
  · intro heq hnz
    have hne : sources ≠ [] := by
      intro h
      subst h
      exact hnz rfl
    have hemp : sources.isEmpty = false := by
      cases sources with
      | nil => exact absurd rfl hne
      | cons a l => rfl
    unfold aggregateResults
    rw [hemp]
    simp only [Bool.false_eq_true, if_false]
    rw [if_neg (by omega : ¬ trueCount sources + falseCount sources = 0)]
    rw [if_neg (by omega : ¬ falseCount sources < trueCount sources)]
    rw [if_neg (by omega : ¬ trueCount sources < falseCount sources)]
  · intro hstat
    by_cases hne : sources = []
    · exact Or.inl hne
    have hemp : sources.isEmpty = false := by
      cases sources with
      | nil => exact absurd rfl hne
      | cons a l => rfl
    by_cases hz : trueCount sources + falseCount sources = 0
    · exact Or.inr (Or.inl hz)
    refine Or.inr (Or.inr ?_)
    unfold aggregateResults at hstat
    rw [hemp] at hstat
    simp only [Bool.false_eq_true, if_false, if_neg hz] at hstat
    by_cases h1 : falseCount sources < trueCount sources
    · rw [if_pos h1] at hstat
      exact absurd hstat (by simp)
    by_cases h2 : trueCount sources < falseCount sources
    · rw [if_neg h1, if_pos h2] at hstat
      exact absurd hstat (by simp)
    constructor
    · omega
    · omega

/-- Witness for C2: the empty list gives confidence 0.0, a single
unclassifiable rating gives confidence 0.3, and a True / False tie gives
confidence 0.5. -/
theorem C2_unverified_cases_witness :
    aggregateResults [] = (VerificationStatus.unverified, 0) ∧
    aggregateResults [⟨"Snopes", "u", "Unknown", none⟩] =
      (VerificationStatus.unverified, 3 / 10) ∧
    aggregateResults [⟨"Snopes", "u", "True", none⟩, ⟨"PolitiFact", "v", "False", none⟩] =
      (VerificationStatus.unverified, 1 / 2) :=
  ⟨(C2_unverified_cases []).1 rfl,
    (C2_unverified_cases [⟨"Snopes", "u", "Unknown", none⟩]).2.1 (by decide) (by decide),
    (C2_unverified_cases
        [⟨"Snopes", "u", "True", none⟩, ⟨"PolitiFact", "v", "False", none⟩]).2.2.1
      (by decide) (by decide)⟩

/-! ## Verify and cache lemmas (for C6, C7, C10) -/

/-- A cache hit returns the stored result unchanged and does not query. -/
theorem verify_hit {digest : List Char → String} {now : Nat} {iso : String}
    {oc : Except ClientError (List FactCheckResult)} {cache : VerificationCache}
    {t : String} {r : VerificationResult}
    (h : cacheGet digest now cache t = some r) :
    verify digest now iso oc cache t = ⟨r, cache, false⟩ := by
  unfold verify
  rw [h]

/-- On a cache miss with a successful client call, verify aggregates the
sources, stamps the current time, stores the result and returns it. -/
theorem verify_miss_ok {digest : List Char → String} {now : Nat} {iso : String}
    {fcs : List FactCheckResult} {cache : VerificationCache} {t : String}
    (h : cacheGet digest now cache t = none) :
    verify digest now iso (Except.ok fcs) cache t =
      ⟨⟨(aggregateResults (fcs.map toSource)).1, fcs.map toSource,
          (aggregateResults (fcs.map toSource)).2, iso⟩,
        cacheSet digest now cache t
          ⟨(aggregateResults (fcs.map toSource)).1, fcs.map toSource,
            (aggregateResults (fcs.map toSource)).2, iso⟩, true⟩ := by
  unfold verify
  rw [h]

/-- On a cache miss with a failing client call, verify returns the error
result and leaves the cache alone. -/
theorem verify_miss_error {digest : List Char → String} {now : Nat} {iso : String}
    {e : ClientError} {cache : VerificationCache} {t : String}
    (h : cacheGet digest now cache t = none) :
    verify digest now iso (Except.error e) cache t =
      ⟨createErrorResult iso, cache, true⟩ := by
  unfold verify
  rw [h]

/-- A missing or expired entry stays missing as time moves forward. -/
theorem cacheGet_none_mono {digest : List Char → String} {now now2 : Nat}
    {cache : VerificationCache} {t : String}
    (h : cacheGet digest now cache t = none) (hle : now ≤ now2) :
    cacheGet digest now2 cache t = none := by
  unfold cacheGet at h ⊢
  cases hl : cache.entries.lookup (makeKey digest t) with
  | none => rfl
  | some rt =>
    obtain ⟨r, ti⟩ := rt
    rw [hl] at h
    change (if now < ti + cache.ttl then some r else none) = none at h
    change (if now2 < ti + cache.ttl then some r else none) = none
    by_cases hv : now < ti + cache.ttl
    · rw [if_pos hv] at h
      exact absurd h (by simp)
    · rw [if_neg (by omega : ¬ now2 < ti + cache.ttl)]

/-- Texts with equal normalizations produce the same cache key. -/
theorem makeKey_norm_eq {digest : List Char → String} {x y : String}
    (h : normalizeClaimText x = normalizeClaimText y) :
    makeKey digest x = makeKey digest y := by
  unfold makeKey
  rw [h]

/-- Reading one key-normalization-equivalent text after setting another finds
the freshly stored result while its TTL has not elapsed. -/
theorem cacheGet_set_norm_eq {digest : List Char → String} {now1 now2 : Nat}
    {cache : VerificationCache} {x y : String} {r : VerificationResult}
    (h : normalizeClaimText x = normalizeClaimText y) :
    cacheGet digest now2 (cacheSet digest now1 cache x r) y =
      if now2 < now1 + cache.ttl then some r else none := by
  unfold cacheGet cacheSet
  simp only [List.lookup, @makeKey_norm_eq digest x y h, beq_self_eq_true, if_pos]

/-! ## Claim C6: failed verification is not cached -/

/-- C6: when the client raises, verify returns an error-status result with no
sources and zero confidence, the cache is unchanged, and a later verify of the
same claim text still queries the external API. -/
theorem C6_error_result_not_cached (digest : List Char → String) (now : Nat)
    (nowIso : String) (e : ClientError) (cache : VerificationCache)
    (claimText : String)
    (hmiss : cacheGet digest now cache claimText = none) :
    (verify digest now nowIso (Except.error e) cache claimText).result.status =
      VerificationStatus.error ∧
    (verify digest now nowIso (Except.error e) cache claimText).result.sources = [] ∧
    (verify digest now nowIso (Except.error e) cache claimText).result.confidence = 0 ∧
    (verify digest now nowIso (Except.error e) cache claimText).cache = cache ∧
    (∀ now2 iso2 oc2, now ≤ now2 →
      (verify digest now2 iso2 oc2
          (verify digest now nowIso (Except.error e) cache claimText).cache
          claimText).queried = true) := by
  rw [verify_miss_error hmiss]
  refine ⟨rfl, rfl, rfl, rfl, ?_⟩
  intro now2 iso2 oc2 hle
  have h2 : cacheGet digest now2 cache claimText = none := cacheGet_none_mono hmiss hle
  cases oc2 with
  | error e2 => rw [verify_miss_error h2]
  | ok fcs2 => rw [verify_miss_ok h2]

/-- Witness for C6 at a concrete input: the trivial digest, time 0, an empty
cache and a transport error. -/
theorem C6_error_result_not_cached_witness :
    (verify (fun c => String.mk c) 0 "t0" (Except.error ClientError.transport)
        ⟨3600, []⟩ "Paris is the capital of France").result.status =
      VerificationStatus.error ∧
    (verify (fun c => String.mk c) 0 "t0" (Except.error ClientError.transport)
        ⟨3600, []⟩ "Paris is the capital of France").cache = ⟨3600, []⟩ :=
  have h := C6_error_result_not_cached (fun c => String.mk c) 0 "t0"
    ClientError.transport ⟨3600, []⟩ "Paris is the capital of France" (by decide)
  ⟨h.1, h.2.2.2.1⟩

/-! ## Claim C7: cache idempotence within the TTL window -/

/-- C7: a verify that misses and succeeds, followed within the TTL window by a
verify of the same text, returns the stored result bit-identically on the
second call — same verified_at timestamp, no client query, no cache change. -/
theorem C7_second_call_identical (digest : List Char → String) (now1 now2 : Nat)
    (iso1 iso2 : String) (fcs : List FactCheckResult)
    (oc2 : Except ClientError (List FactCheckResult))
    (cache : VerificationCache) (claimText : String)
    (hmiss : cacheGet digest now1 cache claimText = none)
    (httl : now2 < now1 + cache.ttl) :
    verify digest now2 iso2 oc2
        (verify digest now1 iso1 (Except.ok fcs) cache claimText).cache claimText =
      ⟨(verify digest now1 iso1 (Except.ok fcs) cache claimText).result,
        (verify digest now1 iso1 (Except.ok fcs) cache claimText).cache, false⟩ ∧
    (verify digest now1 iso1 (Except.ok fcs) cache claimText).result.verified_at =
      iso1 := by
  rw [verify_miss_ok hmiss]
  refine ⟨?_, rfl⟩
  apply verify_hit
  rw [cacheGet_set_norm_eq rfl]
  simp only [cacheSet] at httl ⊢
  rw [if_pos httl]

/-- Witness for C7: concrete first call at time 0, second at time 10 with a
one-hour TTL; the second call returns the first result verbatim and does not
query. -/
theorem C7_second_call_identical_witness :
    verify (fun c => String.mk c) 10 "t1" (Except.error ClientError.transport)
        (verify (fun c => String.mk c) 0 "t0"
          (Except.ok [⟨"Snopes", "u", "True", none⟩]) ⟨3600, []⟩ "Water is wet.").cache
        "Water is wet." =
      ⟨(verify (fun c => String.mk c) 0 "t0"
          (Except.ok [⟨"Snopes", "u", "True", none⟩]) ⟨3600, []⟩ "Water is wet.").result,
        (verify (fun c => String.mk c) 0 "t0"
          (Except.ok [⟨"Snopes", "u", "True", none⟩]) ⟨3600, []⟩ "Water is wet.").cache,
        false⟩ :=
  (C7_second_call_identical (fun c => String.mk c) 0 10 "t0" "t1"
    [⟨"Snopes", "u", "True", none⟩] (Except.error ClientError.transport)
    ⟨3600, []⟩ "Water is wet." (by decide) (by decide)).1

/-! ## Claim C10: cache keys depend only on the normalized claim text -/

/-- C10: cache keys are derived only from the trimmed lower-cased claim text,
so texts with equal normalizations share one cache entry: get after set finds
the stored result while the TTL has not elapsed, and after a successful
verify of x, a verify of y within the TTL window returns the cached result of
x without querying the external API. -/
theorem C10_normalized_cache_key (digest : List Char → String) (x y : String)
    (h : normalizeClaimText x = normalizeClaimText y) :
    makeKey digest x = makeKey digest y ∧
    (∀ (now1 now2 : Nat) (c : VerificationCache) (r : VerificationResult),
      cacheGet digest now2 (cacheSet digest now1 c x r) y =
        if now2 < now1 + c.ttl then some r else none) ∧
    (∀ (now1 now2 : Nat) (iso1 iso2 : String) (fcs : List FactCheckResult)
        (oc2 : Except ClientError (List FactCheckResult)) (c : VerificationCache),
      cacheGet digest now1 c x = none → now2 < now1 + c.ttl →
      verify digest now2 iso2 oc2 (verify digest now1 iso1 (Except.ok fcs) c x).cache y =
        ⟨(verify digest now1 iso1 (Except.ok fcs) c x).result,
          (verify digest now1 iso1 (Except.ok fcs) c x).cache, false⟩) := by
  refine ⟨makeKey_norm_eq h, fun now1 now2 c r => cacheGet_set_norm_eq h, ?_⟩
  intro now1 now2 iso1 iso2 fcs oc2 c hmiss httl
  rw [verify_miss_ok hmiss]
  apply verify_hit
  rw [cacheGet_set_norm_eq h]
  simp only [cacheSet] at httl ⊢
  rw [if_pos httl]

/-- Witness for C10: two claim texts differing in surrounding whitespace and
letter case share a key, and the second text is answered from the first
text's cache entry without a query. -/
theorem C10_normalized_cache_key_witness :
    makeKey (fun c => String.mk c) "  The Earth is round.  " =
      makeKey (fun c => String.mk c) "the earth is ROUND." ∧
    verify (fun c => String.mk c) 5 "t1" (Except.error ClientError.transport)
        (verify (fun c => String.mk c) 0 "t0" (Except.ok []) ⟨3600, []⟩
          "  The Earth is round.  ").cache "the earth is ROUND." =
      ⟨(verify (fun c => String.mk c) 0 "t0" (Except.ok []) ⟨3600, []⟩
          "  The Earth is round.  ").result,
        (verify (fun c => String.mk c) 0 "t0" (Except.ok []) ⟨3600, []⟩
          "  The Earth is round.  ").cache, false⟩ :=
  have h := C10_normalized_cache_key (fun c => String.mk c)
    "  The Earth is round.  " "the earth is ROUND." (by decide)
  ⟨h.1, h.2.2 0 5 "t0" "t1" [] (Except.error ClientError.transport) ⟨3600, []⟩
    (by decide) (by decide)⟩

/-! ## Claim C8: retry policy of the fact-check client -/

/-- Shape of a response the loop does not retry: some status whose code is
neither 429 nor 5xx, and whose body decodes whenever the code is 2xx. -/
theorem retryableResponse_false_cases {r : ApiResponse}
    (h : retryableResponse r = false) :
    ∃ code body, r = ApiResponse.status code body ∧ code ≠ 429 ∧ ¬ 500 ≤ code ∧
      (200 ≤ code ∧ code < 300 → ∃ rs, body = some rs) := by
  cases r with
  | transportError => exact absurd h (by decide)
  | status code body =>
    have h' : ¬ (retryableResponse (ApiResponse.status code body) = true) := by
      rw [h]
      exact fun hc => absurd hc (by decide)
    simp only [retryableResponse, Bool.or_eq_true, Bool.and_eq_true,
      decide_eq_true_eq, Option.isNone_iff_eq_none] at h'
    push_neg at h'
    obtain ⟨⟨h429, h5⟩, h2⟩ := h'
    refine ⟨code, body, rfl, h429, by omega, fun hc => ?_⟩
    have hbne : body ≠ none := h2 ⟨hc.1, hc.2⟩
    cases body with
    | none => exact absurd rfl hbne
    | some rs => exact ⟨rs, rfl⟩

/-- One retryable iteration of the loop: record the error, sleep the current
backoff, double it and move to the next attempt. -/
theorem searchGo_step_retryable {responses : Nat → ApiResponse}
    {fuel attempt backoff : Nat} {le : Option ClientError} {sleeps : List Nat}
    (h : retryableResponse (responses attempt) = true) :
    searchGo responses (fuel + 1) attempt backoff le sleeps =
      searchGo responses fuel (attempt + 1) (backoff * 2)
        (some (responseError (responses attempt))) (sleeps ++ [backoff]) := by
  conv_lhs => unfold searchGo
  cases hr : responses attempt with
  | transportError => rfl
  | status code body =>
    rw [hr] at h
    simp only [retryableResponse, Bool.or_eq_true, Bool.and_eq_true,
      decide_eq_true_eq, Option.isNone_iff_eq_none] at h
    rcases h with (h429 | h5) | ⟨⟨h2a, h2b⟩, hb⟩
    · subst h429
      rfl
    · have h429 : ¬ code = 429 := by omega
      simp only [responseError, if_neg h429, if_pos h5]
    · subst hb
      have h429 : ¬ code = 429 := by omega
      have h5 : ¬ 500 ≤ code := by omega
      simp only [responseError, if_neg h429, if_neg h5,
        if_pos (show 200 ≤ code ∧ code < 300 from ⟨h2a, h2b⟩)]

/-- A decodable 2xx response ends the loop with the parsed list. -/
theorem searchGo_step_success {responses : Nat → ApiResponse}
    {fuel attempt backoff : Nat} {le : Option ClientError} {sleeps : List Nat}
    {code : Nat} {rs : List FactCheckResult}
    (h : responses attempt = ApiResponse.status code (some rs))
    (h2a : 200 ≤ code) (h2b : code < 300) :
    searchGo responses (fuel + 1) attempt backoff le sleeps =
      ⟨Except.ok rs, attempt + 1, sleeps⟩ := by
  unfold searchGo
  rw [h]
  have h429 : ¬ code = 429 := by omega
  have h5 : ¬ 500 ≤ code := by omega
  simp [h429, h5, h2a, h2b]

/-- A response that is neither retryable nor a decodable 2xx raises its
HTTPStatusError immediately. -/
theorem searchGo_step_fatal {responses : Nat → ApiResponse}
    {fuel attempt backoff : Nat} {le : Option ClientError} {sleeps : List Nat}
    {code : Nat} {body : Option (List FactCheckResult)}
    (h : responses attempt = ApiResponse.status code body)
    (h429 : code ≠ 429) (h5 : ¬ 500 ≤ code) (h2xx : ¬ (200 ≤ code ∧ code < 300)) :
    searchGo responses (fuel + 1) attempt backoff le sleeps =
      ⟨Except.error (ClientError.httpStatus code), attempt + 1, sleeps⟩ := by
  unfold searchGo
  rw [h]
  simp [h429, h5, h2xx]

/-- The loop makes at most fuel further attempts. -/
theorem searchGo_attempts_le (responses : Nat → ApiResponse) :
    ∀ (fuel attempt backoff : Nat) (le : Option ClientError) (sleeps : List Nat),
      (searchGo responses fuel attempt backoff le sleeps).attempts ≤ attempt + fuel := by
  intro fuel
  induction fuel with
  | zero =>
    intro attempt backoff le sleeps
    cases le <;> simp [searchGo]
  | succ n ih =>
    intro attempt backoff le sleeps
    cases hret : retryableResponse (responses attempt) with
    | true =>
      rw [searchGo_step_retryable hret]
      have := ih (attempt + 1) (backoff * 2)
        (some (responseError (responses attempt))) (sleeps ++ [backoff])
      omega
    | false =>
      obtain ⟨code, body, hreq, h429, h5, hbody⟩ := retryableResponse_false_cases hret
      by_cases h2xx : 200 ≤ code ∧ code < 300
      · obtain ⟨rs, hrs⟩ := hbody h2xx
        subst hrs
        rw [searchGo_step_success hreq h2xx.1 h2xx.2]
        dsimp only
        omega
      · rw [searchGo_step_fatal hreq h429 h5 h2xx]
        dsimp only
        omega

/-- From a state whose sleeps are the doubling sequence 2 ^ 0 .. 2 ^ (k - 1)
and whose backoff is 2 ^ k, the final sleeps are some longer doubling
sequence. -/
theorem searchGo_sleeps_doubling (responses : Nat → ApiResponse) :
    ∀ (fuel k : Nat) (le : Option ClientError),
      ∃ n, n ≤ k + fuel ∧
        (searchGo responses fuel k (2 ^ k) le
            ((List.range k).map (fun i => 2 ^ i))).sleeps =
          (List.range n).map (fun i => 2 ^ i) := by
  intro fuel
  induction fuel with
  | zero =>
    intro k le
    refine ⟨k, Nat.le_refl k, ?_⟩
    cases le <;> simp [searchGo]
  | succ m ih =>
    intro k le
    cases hret : retryableResponse (responses k) with
    | true =>
      rw [searchGo_step_retryable hret]
      have happ : (List.range k).map (fun i => 2 ^ i) ++ [2 ^ k] =
          (List.range (k + 1)).map (fun i => 2 ^ i) := by
        rw [List.range_succ, List.map_append]
        rfl
      rw [happ, show 2 ^ k * 2 = 2 ^ (k + 1) from by ring]
      obtain ⟨n, hn, hs⟩ := ih (k + 1) (some (responseError (responses k)))
      exact ⟨n, by omega, hs⟩
    | false =>
      obtain ⟨code, body, hreq, h429, h5, hbody⟩ := retryableResponse_false_cases hret
      by_cases h2xx : 200 ≤ code ∧ code < 300
      · obtain ⟨rs, hrs⟩ := hbody h2xx
        subst hrs
        rw [searchGo_step_success hreq h2xx.1 h2xx.2]
        exact ⟨k, by omega, rfl⟩
      · rw [searchGo_step_fatal hreq h429 h5 h2xx]
        exact ⟨k, by omega, rfl⟩

/-- Every attempt beyond the first follows a retryable response: if attempt
i + 1 was made then response i triggered a retry. -/
theorem searchGo_retry_only_on_triggers (responses : Nat → ApiResponse) :
    ∀ (fuel k backoff : Nat) (le : Option ClientError) (sleeps : List Nat) (i : Nat),
      k ≤ i → i + 1 < (searchGo responses fuel k backoff le sleeps).attempts →
      retryableResponse (responses i) = true := by
  intro fuel
  induction fuel with
  | zero =>
    intro k backoff le sleeps i hki hlt
    have : (searchGo responses 0 k backoff le sleeps).attempts = k := by
      cases le <;> rfl
    omega
  | succ m ih =>
    intro k backoff le sleeps i hki hlt
    cases hret : retryableResponse (responses k) with
    | true =>
      by_cases hik : i = k
      · subst hik
        exact hret
      · have hk1 : k + 1 ≤ i := by omega
        rw [searchGo_step_retryable hret] at hlt
        exact ih (k + 1) (backoff * 2) (some (responseError (responses k)))
          (sleeps ++ [backoff]) i hk1 hlt
    | false =>
      obtain ⟨code, body, hreq, h429, h5, hbody⟩ := retryableResponse_false_cases hret
      by_cases h2xx : 200 ≤ code ∧ code < 300
      · obtain ⟨rs, hrs⟩ := hbody h2xx
        subst hrs
        rw [searchGo_step_success hreq h2xx.1 h2xx.2] at hlt
        dsimp only at hlt
        omega
      · rw [searchGo_step_fatal hreq h429 h5 h2xx] at hlt
        dsimp only at hlt
        omega

/-- With a non-empty API key, search runs the retry loop. -/
theorem search_enabled {k : String} (hk : k ≠ "") (responses : Nat → ApiResponse) :
    search (some k) responses =
      searchGo responses MAX_RETRIES 0 INITIAL_BACKOFF none [] := by
  unfold search
  rw [if_neg]
  simpa using hk

/-- After i retryable responses the loop is at attempt i with backoff 2 ^ i,
the last error recorded from response i - 1, and the doubling sleeps. -/
theorem searchGo_state_after_retries (responses : Nat → ApiResponse) :
    ∀ i, i ≤ MAX_RETRIES → (∀ j, j < i → retryableResponse (responses j) = true) →
      searchGo responses MAX_RETRIES 0 INITIAL_BACKOFF none [] =
        searchGo responses (MAX_RETRIES - i) i (2 ^ i)
          (if i = 0 then none else some (responseError (responses (i - 1))))
          ((List.range i).map (fun j => 2 ^ j)) := by
  intro i
  induction i with
  | zero =>
    intro _ _
    rfl
  | succ n ih =>
    intro hle hall
    rw [ih (by omega) (fun j hj => hall j (by omega))]
    have hstep := @searchGo_step_retryable responses (MAX_RETRIES - n - 1) n (2 ^ n)
      (if n = 0 then none else some (responseError (responses (n - 1))))
      ((List.range n).map (fun j => 2 ^ j)) (hall n (by omega))
    have hfuel : MAX_RETRIES - n = (MAX_RETRIES - n - 1) + 1 := by
      unfold MAX_RETRIES at hle ⊢
      omega
    rw [hfuel, hstep]
    have happ : (List.range n).map (fun j => 2 ^ j) ++ [2 ^ n] =
        (List.range (n + 1)).map (fun j => 2 ^ j) := by
      rw [List.range_succ, List.map_append]
      rfl
    rw [happ, show 2 ^ n * 2 = 2 ^ (n + 1) from by ring,
      show MAX_RETRIES - n - 1 = MAX_RETRIES - (n + 1) from by omega,
      if_neg (Nat.succ_ne_zero n), Nat.add_sub_cancel]

/-- C8: the client makes at most 3 attempts; the backoff sleeps double
starting from 1 second; an attempt beyond the first happens only after a 429,
5xx, transport or decoding failure; a non-429 4xx propagates immediately
without further attempts; and when all attempts fail retryably the last
encountered error is raised (never an empty success). -/
theorem C8_retry_policy (k : String) (hk : k ≠ "") (responses : Nat → ApiResponse) :
    (search (some k) responses).attempts ≤ MAX_RETRIES ∧
    (∃ n, n ≤ MAX_RETRIES ∧
      (search (some k) responses).sleeps = (List.range n).map (fun i => 2 ^ i)) ∧
    (∀ i, i + 1 < (search (some k) responses).attempts →
      retryableResponse (responses i) = true) ∧
    (∀ i, i < MAX_RETRIES → (∀ j, j < i → retryableResponse (responses j) = true) →
      ∀ code body, responses i = ApiResponse.status code body →
        400 ≤ code → code < 500 → code ≠ 429 →
        search (some k) responses =
          ⟨Except.error (ClientError.httpStatus code), i + 1,
            (List.range i).map (fun j => 2 ^ j)⟩) ∧
    ((∀ j, j < MAX_RETRIES → retryableResponse (responses j) = true) →
      search (some k) responses =
        ⟨Except.error (responseError (responses (MAX_RETRIES - 1))), MAX_RETRIES,
          [1, 2, 4]⟩) := by
  rw [search_enabled hk responses]
  refine ⟨?_, ?_, ?_, ?_, ?_⟩
  · simpa using searchGo_attempts_le responses MAX_RETRIES 0 INITIAL_BACKOFF none []
  · have := searchGo_sleeps_doubling responses MAX_RETRIES 0 none
    simpa [INITIAL_BACKOFF] using this
  · intro i hlt
    exact searchGo_retry_only_on_triggers responses MAX_RETRIES 0 INITIAL_BACKOFF
      none [] i (Nat.zero_le i) hlt
  · intro i hi hall code body hresp h400 h500 h429
    rw [searchGo_state_after_retries responses i (by omega) hall]
    have hfuel : MAX_RETRIES - i = (MAX_RETRIES - i - 1) + 1 := by
      unfold MAX_RETRIES at hi ⊢
      omega
    rw [hfuel]
    exact searchGo_step_fatal hresp h429 (by omega) (by omega)
  · intro hall
    rw [searchGo_state_after_retries responses MAX_RETRIES (by omega) hall]
    rfl

/-- Witness for C8: three straight 429 responses exhaust the retries with
sleeps of 1, 2 and 4 seconds and raise the rate-limit error, while a 404
propagates on the first attempt with no sleeps. -/
theorem C8_retry_policy_witness :
    search (some "key") (fun _ => ApiResponse.status 429 none) =
      ⟨Except.error (ClientError.httpStatus 429), 3, [1, 2, 4]⟩ ∧
    search (some "key") (fun _ => ApiResponse.status 404 none) =
      ⟨Except.error (ClientError.httpStatus 404), 1, []⟩ := by
  constructor
  · have h := (C8_retry_policy "key" (by decide)
      (fun _ => ApiResponse.status 429 none)).2.2.2.2 (fun j _ => by decide)
    rw [h]
    rfl
  · have h := (C8_retry_policy "key" (by decide)
      (fun _ => ApiResponse.status 404 none)).2.2.2.1 0 (by decide)
      (fun j hj => absurd hj (by omega)) 404 none rfl (by decide) (by decide) (by decide)
    rw [h]
    rfl

/-! ## Slice, strip and sentence-expansion lemmas (for C3, C4) -/

/-- Length of a slice whose right end is inside the list. -/
theorem sliceList_length {s : List Char} {a b : Nat} (h : b ≤ s.length) :
    (sliceList s a b).length = b - a := by
  unfold sliceList
  rw [List.length_take, List.length_drop]
  omega

/-- Splitting a slice at an interior point. -/
theorem sliceList_append {s : List Char} {a b c : Nat} (hab : a ≤ b) (hbc : b ≤ c) :
    sliceList s a c = sliceList s a b ++ sliceList s b c := by
  unfold sliceList
  rw [show c - a = (b - a) + (c - b) from by omega, List.take_add, List.drop_drop,
    show a + (b - a) = b from by omega]

/-- Stripping never lengthens a string. -/
theorem pyStrip_length_le (s : List Char) : (pyStrip s).length ≤ s.length := by
  unfold pyStrip
  rw [List.length_reverse]
  refine le_trans (List.dropWhile_sublist _).length_le ?_
  rw [List.length_reverse]
  exact (List.dropWhile_sublist _).length_le

/-- The sentence start found for a position never lies to its right. -/
theorem findSentenceStart_le (text : List Char) : ∀ pos, findSentenceStart text pos ≤ pos := by
  intro pos
  induction pos with
  | zero => exact Nat.le_refl 0
  | succ s ih =>
    unfold findSentenceStart
    split
    · exact Nat.le_refl (s + 1)
    · exact Nat.le_succ_of_le ih

/-- The sentence-end loop never moves left. -/
theorem findSentenceEndGo_ge (text : List Char) :
    ∀ fuel pos, pos ≤ findSentenceEndGo text fuel pos := by
  intro fuel
  induction fuel with
  | zero =>
    intro pos
    exact Nat.le_refl pos
  | succ m ih =>
    intro pos
    unfold findSentenceEndGo
    by_cases hlt : pos < text.length
    · rw [dif_pos hlt]
      split
      · omega
      · exact le_trans (Nat.le_succ pos) (ih (pos + 1))
    · rw [dif_neg hlt]

/-- The sentence end found for a position never lies to its left. -/
theorem findSentenceEnd_ge (text : List Char) (pos : Nat) : pos ≤ findSentenceEnd text pos :=
  findSentenceEndGo_ge text (text.length - pos) pos

/-- The sentence-end loop stays inside the text when it starts inside it. -/
theorem findSentenceEndGo_le_length (text : List Char) :
    ∀ fuel pos, pos ≤ text.length → findSentenceEndGo text fuel pos ≤ text.length := by
  intro fuel
  induction fuel with
  | zero =>
    intro pos hp
    exact hp
  | succ m ih =>
    intro pos hp
    unfold findSentenceEndGo
    by_cases hlt : pos < text.length
    · rw [dif_pos hlt]
      split
      · omega
      · exact ih (pos + 1) (by omega)
    · rw [dif_neg hlt]
      exact hp

/-- The sentence end stays inside the text when the scan starts inside it. -/
theorem findSentenceEnd_le_length (text : List Char) (pos : Nat) (hp : pos ≤ text.length) :
    findSentenceEnd text pos ≤ text.length :=
  findSentenceEndGo_le_length text (text.length - pos) pos hp

/-! ## Membership through the extraction pipeline (for C3, C4) -/

/-- Unfolding of one step of the _matches_to_claims loop. -/
theorem matchesToClaimsAux_cons (ids : Nat → String) (text : List Char)
    (m : PatternMatch) (rest : List PatternMatch) (seen : List (List Char)) (k : Nat) :
    matchesToClaimsAux ids text (m :: rest) seen k =
      if seen.contains (sentenceOf text m) then
        matchesToClaimsAux ids text rest seen k
      else if (sentenceOf text m).length < 10 || (sentenceOf text m).length > 500 then
        matchesToClaimsAux ids text rest (sentenceOf text m :: seen) k
      else
        { id := ids k, text := sentenceOf text m, type := m.claim_type,
          confidence := BASE_CONFIDENCE,
          source_offset := some ⟨findSentenceStart text m.start,
            findSentenceEnd text m.stop⟩ } ::
          matchesToClaimsAux ids text rest (sentenceOf text m :: seen) (k + 1) := rfl

/-- Every claim built by _matches_to_claims comes from one of the matches,
carries that match's sentence span as its offset, and has a stripped sentence
of length 10 to 500. -/
theorem mem_matchesToClaimsAux (ids : Nat → String) (text : List Char) :
    ∀ (ms : List PatternMatch) (seen : List (List Char)) (k : Nat) (c : Claim),
      c ∈ matchesToClaimsAux ids text ms seen k →
      ∃ m ∈ ms,
        c.source_offset = some ⟨findSentenceStart text m.start,
          findSentenceEnd text m.stop⟩ ∧
        c.text = sentenceOf text m ∧
        10 ≤ (sentenceOf text m).length ∧ (sentenceOf text m).length ≤ 500 := by
  intro ms
  induction ms with
  | nil =>
    intro seen k c hc
    exact absurd hc (List.not_mem_nil c)
  | cons m rest ih =>
    intro seen k c hc
    rw [matchesToClaimsAux_cons] at hc
    by_cases h1 : seen.contains (sentenceOf text m) = true
    · rw [if_pos h1] at hc
      obtain ⟨m', hm', hprops⟩ := ih seen k c hc
      exact ⟨m', List.mem_cons_of_mem m hm', hprops⟩
    · rw [if_neg h1] at hc
      by_cases h2 : ((sentenceOf text m).length < 10 || (sentenceOf text m).length > 500) = true
      · rw [if_pos h2] at hc
        obtain ⟨m', hm', hprops⟩ := ih _ k c hc
        exact ⟨m', List.mem_cons_of_mem m hm', hprops⟩
      · rw [if_neg h2] at hc
        simp only [Bool.or_eq_true, decide_eq_true_eq, not_or, not_lt] at h2
        rcases List.mem_cons.mp hc with hceq | hmem
        · subst hceq
          exact ⟨m, List.mem_cons_self m rest, rfl, rfl, h2.1, by omega⟩
        · obtain ⟨m', hm', hprops⟩ := ih _ (k + 1) c hmem
          exact ⟨m', List.mem_cons_of_mem m hm', hprops⟩

/-- Membership through stable insertion. -/
theorem mem_insertByKey {c x : Claim} : ∀ {l : List Claim},
    c ∈ insertByKey x l → c = x ∨ c ∈ l := by
  intro l
  induction l with
  | nil =>
    intro h
    rcases List.mem_cons.mp h with h | h
    · exact Or.inl h
    · exact absurd h (List.not_mem_nil c)
  | cons y ys ih =>
    intro h
    unfold insertByKey at h
    split at h
    · rcases List.mem_cons.mp h with h | h
      · exact Or.inl h
      · exact Or.inr h
    · rcases List.mem_cons.mp h with h | h
      · exact Or.inr (h ▸ List.mem_cons_self y ys)
      · rcases ih h with h | h
        · exact Or.inl h
        · exact Or.inr (List.mem_cons_of_mem y h)

/-- Membership through the stable sort. -/
theorem mem_sortClaims {c : Claim} : ∀ {l : List Claim}, c ∈ sortClaims l → c ∈ l := by
  intro l
  induction l with
  | nil =>
    intro h
    exact absurd h (List.not_mem_nil c)
  | cons x xs ih =>
    intro h
    rcases mem_insertByKey h with h | h
    · exact h ▸ List.mem_cons_self x xs
    · exact List.mem_cons_of_mem x (ih h)

/-- Membership through the dedup loop. -/
theorem mem_dedupGo {c : Claim} : ∀ {l acc : List Claim},
    c ∈ dedupGo l acc → c ∈ acc ∨ c ∈ l := by
  intro l
  induction l with
  | nil =>
    intro acc h
    exact Or.inl h
  | cons x xs ih =>
    intro acc h
    unfold dedupGo at h
    split at h
    · rcases ih h with h | h
      · exact Or.inl h
      · exact Or.inr (List.mem_cons_of_mem x h)
    · rcases ih h with h | h
      · rcases List.mem_append.mp h with h | h
        · exact Or.inl h
        · rcases List.mem_cons.mp h with h | h
          · exact Or.inr (h ▸ List.mem_cons_self x xs)
          · exact absurd h (List.not_mem_nil c)
      · exact Or.inr (List.mem_cons_of_mem x h)

/-- Every extracted claim comes from one of the scan matches with that match's
sentence span and a stripped sentence of length 10 to 500. -/
theorem mem_extractFromMatches {ids : Nat → String} {text : List Char}
    {ms : List PatternMatch} {c : Claim} (hc : c ∈ extractFromMatches ids text ms) :
    ∃ m ∈ ms,
      c.source_offset = some ⟨findSentenceStart text m.start,
        findSentenceEnd text m.stop⟩ ∧
      c.text = sentenceOf text m ∧
      10 ≤ (sentenceOf text m).length ∧ (sentenceOf text m).length ≤ 500 := by
  unfold extractFromMatches deduplicateClaims at hc
  rcases mem_dedupGo hc with h | h
  · exact absurd h (List.not_mem_nil c)
  · exact mem_matchesToClaimsAux ids text ms [] 0 c (mem_sortClaims h)

/-- The extraction confidence constant is exactly 0.6 = 3 / 5. -/
theorem BASE_CONFIDENCE_eq_div : BASE_CONFIDENCE = 3 / 5 := by
  rw [BASE_CONFIDENCE, Rat.mk'_eq_divInt, Rat.divInt_eq_div]
  norm_num

/-! ## Claim C3: span properties of extracted claims -/

/-- C3 (amended): every extracted claim's span slices to a non-empty substring
of at least 10 characters that contains the matched cue text, and whose
whitespace-stripped form has length between 10 and 500.  (The 500-character
bound holds for the stripped sentence, not for the raw slice: the span keeps
surrounding whitespace that the stored sentence text strips away.) -/
theorem C3_span_properties (ids : Nat → String) (text : List Char)
    (ms : List PatternMatch) (hval : ∀ m ∈ ms, ValidMatch text m)
    (c : Claim) (hc : c ∈ extractFromMatches ids text ms) :
    ∃ o, c.source_offset = some o ∧ o.stop ≤ text.length ∧
      sliceList text o.start o.stop ≠ [] ∧
      10 ≤ (sliceList text o.start o.stop).length ∧
      10 ≤ (pyStrip (sliceList text o.start o.stop)).length ∧
      (pyStrip (sliceList text o.start o.stop)).length ≤ 500 ∧
      ∃ m ∈ ms, ∃ u v, sliceList text o.start o.stop = u ++ m.match_text ++ v := by
  obtain ⟨m, hm, hoff, htext, h10, h500⟩ := mem_extractFromMatches hc
  obtain ⟨hms, hmstop, hmtext⟩ := hval m hm
  have h1 : findSentenceStart text m.start ≤ m.start := findSentenceStart_le text m.start
  have h2 : m.stop ≤ findSentenceEnd text m.stop := findSentenceEnd_ge text m.stop
  have h3 : findSentenceEnd text m.stop ≤ text.length :=
    findSentenceEnd_le_length text m.stop hmstop
  have hstrip10 : 10 ≤ (pyStrip (sliceList text (findSentenceStart text m.start)
      (findSentenceEnd text m.stop))).length := h10
  have hstrip500 : (pyStrip (sliceList text (findSentenceStart text m.start)
      (findSentenceEnd text m.stop))).length ≤ 500 := h500
  have hraw10 : 10 ≤ (sliceList text (findSentenceStart text m.start)
      (findSentenceEnd text m.stop)).length :=
    le_trans hstrip10 (pyStrip_length_le _)
  refine ⟨⟨findSentenceStart text m.start, findSentenceEnd text m.stop⟩, hoff, h3, ?_,
    hraw10, hstrip10, hstrip500, m, hm,
    sliceList text (findSentenceStart text m.start) m.start,
    sliceList text m.stop (findSentenceEnd text m.stop), ?_⟩
  · intro hnil
    rw [hnil] at hraw10
    exact absurd hraw10 (by decide)
  · rw [hmtext, sliceList_append h1 (le_trans hms h2), sliceList_append hms h2,
      List.append_assoc]

/-- Witness for the amended C3 at a concrete input: the sentence claim
extracted from the Paris text satisfies all the span properties. -/
theorem C3_span_properties_witness :
    (∀ m ∈ [(⟨6, 23, "is the capital of".toList, ClaimType.factual⟩ : PatternMatch)],
      ValidMatch "Paris is the capital of France today.".toList m) ∧
    (⟨"w", "Paris is the capital of France today.".toList, ClaimType.factual,
        BASE_CONFIDENCE, some ⟨0, 37⟩⟩ : Claim) ∈
      extractFromMatches (fun _ => "w") "Paris is the capital of France today.".toList
        [⟨6, 23, "is the capital of".toList, ClaimType.factual⟩] ∧
    (∃ o, (⟨"w", "Paris is the capital of France today.".toList, ClaimType.factual,
        BASE_CONFIDENCE, some ⟨0, 37⟩⟩ : Claim).source_offset = some o ∧
      o.stop ≤ "Paris is the capital of France today.".toList.length ∧
      sliceList "Paris is the capital of France today.".toList o.start o.stop ≠ [] ∧
      10 ≤ (sliceList "Paris is the capital of France today.".toList o.start o.stop).length ∧
      10 ≤ (pyStrip (sliceList "Paris is the capital of France today.".toList
        o.start o.stop)).length ∧
      (pyStrip (sliceList "Paris is the capital of France today.".toList
        o.start o.stop)).length ≤ 500 ∧
      ∃ m ∈ [(⟨6, 23, "is the capital of".toList, ClaimType.factual⟩ : PatternMatch)],
        ∃ u v, sliceList "Paris is the capital of France today.".toList o.start o.stop =
          u ++ m.match_text ++ v) :=
  ⟨by decide, by decide,
    C3_span_properties (fun _ => "w") "Paris is the capital of France today.".toList
      [⟨6, 23, "is the capital of".toList, ClaimType.factual⟩] (by decide)
      ⟨"w", "Paris is the capital of France today.".toList, ClaimType.factual,
        BASE_CONFIDENCE, some ⟨0, 37⟩⟩ (by decide)⟩

set_option maxRecDepth 20000 in
/-- Counterexample to C3 as stated: on C3cexText the extractor returns one
claim whose span is the whole 501-character text, so the slice at its
source_offset is longer than 500 characters. -/
theorem C3_counterexample :
    (∀ m ∈ C3cexMatches, ValidMatch C3cexText m) ∧
    (extractFromMatches (fun _ => "id") C3cexText C3cexMatches).map
      (fun c => c.source_offset) = [some ⟨0, 501⟩] ∧
    500 < (sliceList C3cexText 0 501).length := by
  refine ⟨by decide, by decide, by decide⟩

/-! ## Claim C4: no pair of returned claims overlaps significantly -/

/-- Unfolding of _claims_overlap when both claims carry spans. -/
theorem claimsOverlap_some {c1 c2 : Claim} {o1 o2 : SourceOffset}
    (h1 : c1.source_offset = some o1) (h2 : c2.source_offset = some o2) :
    claimsOverlap c1 c2 =
      if min (o1.stop : Int) (o2.stop : Int) ≤ max (o1.start : Int) (o2.start : Int) then
        false
      else
        decide (2 * (min (o1.stop : Int) (o2.stop : Int) -
            max (o1.start : Int) (o2.start : Int)) >
          min ((o1.stop : Int) - (o1.start : Int)) ((o2.stop : Int) - (o2.start : Int))) := by
  unfold claimsOverlap
  rw [h1, h2]

/-- A pair the dedup filter accepts satisfies the 50-percent bound: twice the
span intersection is at most the shorter span length. -/
theorem overlap_false_bound {c1 c2 : Claim} {o1 o2 : SourceOffset}
    (hov : claimsOverlap c1 c2 = false)
    (ho1 : c1.source_offset = some o1) (ho2 : c2.source_offset = some o2) :
    2 * (min (o1.stop : Int) (o2.stop : Int) - max (o1.start : Int) (o2.start : Int)) ≤
      min ((o1.stop : Int) - (o1.start : Int)) ((o2.stop : Int) - (o2.start : Int)) ∨
    min (o1.stop : Int) (o2.stop : Int) ≤ max (o1.start : Int) (o2.start : Int) := by
  rw [claimsOverlap_some ho1 ho2] at hov
  by_cases hle : min (o1.stop : Int) (o2.stop : Int) ≤ max (o1.start : Int) (o2.start : Int)
  · exact Or.inr hle
  · rw [if_neg hle, decide_eq_false_iff_not, not_lt] at hov
    exact Or.inl hov

/-- The dedup loop keeps only claims that do not overlap any already-kept
claim, so its output is pairwise non-overlapping. -/
theorem dedupGo_pairwise :
    ∀ (l acc : List Claim),
      acc.Pairwise (fun a b => claimsOverlap b a = false) →
      (dedupGo l acc).Pairwise (fun a b => claimsOverlap b a = false) := by
  intro l
  induction l with
  | nil =>
    intro acc h
    exact h
  | cons c rest ih =>
    intro acc hacc
    unfold dedupGo
    split
    · exact ih acc hacc
    · next hany =>
      apply ih
      rw [List.pairwise_append]
      refine ⟨hacc, List.pairwise_singleton _ c, ?_⟩
      intro a ha b hb
      have hb' : b = c := by
        rcases List.mem_cons.mp hb with h | h
        · exact h
        · exact absurd h (List.not_mem_nil b)
      subst hb'
      have hfalse : acc.any (fun e => claimsOverlap b e) = false :=
        Bool.eq_false_iff.mpr hany
      exact Bool.eq_false_iff.mpr (List.any_eq_false.mp hfalse a ha)

/-- C4: no two claims returned by extract overlap in more than half of the
shorter span — for every earlier/later pair of distinct returned claims with
spans o1 and o2, either the spans do not intersect, or twice the intersection
length is at most the shorter of the two span lengths. -/
theorem C4_no_significant_overlap (ids : Nat → String) (text : List Char)
    (ms : List PatternMatch) (hval : ∀ m ∈ ms, ValidMatch text m) :
    (extractFromMatches ids text ms).Pairwise (fun c1 c2 =>
      ∀ o1 o2, c1.source_offset = some o1 → c2.source_offset = some o2 →
        2 * (min (o1.stop : Int) (o2.stop : Int) -
            max (o1.start : Int) (o2.start : Int)) ≤
          min ((o1.stop : Int) - (o1.start : Int))
            ((o2.stop : Int) - (o2.start : Int))) := by
  have hpair : (extractFromMatches ids text ms).Pairwise
      (fun a b => claimsOverlap b a = false) := by
    unfold extractFromMatches deduplicateClaims
    exact dedupGo_pairwise _ [] List.Pairwise.nil
  refine hpair.imp_of_mem ?_
  intro a b ha hb hov o1 o2 ho1 ho2
  obtain ⟨m1, hm1, hoff1, -, -, -⟩ := mem_extractFromMatches ha
  obtain ⟨m2, hm2, hoff2, -, -, -⟩ := mem_extractFromMatches hb
  have ho1' : o1 = ⟨findSentenceStart text m1.start, findSentenceEnd text m1.stop⟩ :=
    Option.some.inj (ho1 ▸ hoff1)
  have ho2' : o2 = ⟨findSentenceStart text m2.start, findSentenceEnd text m2.stop⟩ :=
    Option.some.inj (ho2 ▸ hoff2)
  have hl1 : o1.start ≤ o1.stop := by
    rw [ho1']
    exact le_trans (findSentenceStart_le text m1.start)
      (le_trans (hval m1 hm1).1 (findSentenceEnd_ge text m1.stop))
  have hl2 : o2.start ≤ o2.stop := by
    rw [ho2']
    exact le_trans (findSentenceStart_le text m2.start)
      (le_trans (hval m2 hm2).1 (findSentenceEnd_ge text m2.stop))
  rcases overlap_false_bound hov ho2 ho1 with hbd | hbd
  · omega
  · omega

/-- Witness for C4: the two-sentence Paris text yields two claims with
adjacent non-intersecting spans, and the theorem's bound holds for them. -/
theorem C4_no_significant_overlap_witness :
    (extractFromMatches (fun _ => "w4")
      "Paris is the capital of France. It is located in Western Europe.".toList
      [⟨6, 23, "is the capital of".toList, ClaimType.factual⟩,
        ⟨38, 48, "located in".toList, ClaimType.factual⟩]).Pairwise (fun c1 c2 =>
      ∀ o1 o2, c1.source_offset = some o1 → c2.source_offset = some o2 →
        2 * (min (o1.stop : Int) (o2.stop : Int) -
            max (o1.start : Int) (o2.start : Int)) ≤
          min ((o1.stop : Int) - (o1.start : Int))
            ((o2.stop : Int) - (o2.start : Int))) :=
  C4_no_significant_overlap (fun _ => "w4")
    "Paris is the capital of France. It is located in Western Europe.".toList
    [⟨6, 23, "is the capital of".toList, ClaimType.factual⟩,
      ⟨38, 48, "located in".toList, ClaimType.factual⟩] (by decide)

/-! ## Claim C9: determinism of extraction

The code draws each claim id from uuid.uuid4(), so two calls of extract on
the same text differ exactly in the id streams they consume.  dropId erases
the id; extraction is deterministic on everything dropId keeps. -/

/-- Lists related pointwise by dropId-equality have equal dropId images. -/
theorem forall₂_dropId_map {l l' : List Claim}
    (h : List.Forall₂ (fun a b => dropId a = dropId b) l l') :
    l.map dropId = l'.map dropId := by
  induction h with
  | nil => rfl
  | cons hab _ ih =>
    simp only [List.map_cons, hab, ih]

/-- _claims_overlap only reads id-independent fields. -/
theorem claimsOverlap_congr {a a' b b' : Claim} (ha : dropId a = dropId a')
    (hb : dropId b = dropId b') : claimsOverlap a b = claimsOverlap a' b' := by
  have h1 : a.source_offset = a'.source_offset := congrArg ClaimData.source_offset ha
  have h2 : b.source_offset = b'.source_offset := congrArg ClaimData.source_offset hb
  have h3 : a.text = a'.text := congrArg ClaimData.text ha
  have h4 : b.text = b'.text := congrArg ClaimData.text hb
  unfold claimsOverlap
  rw [h1, h2, h3, h4]

/-- The dedup sort key only reads id-independent fields. -/
theorem dedupKey_congr {a a' : Claim} (ha : dropId a = dropId a') :
    dedupKey a = dedupKey a' := by
  have h1 : a.source_offset = a'.source_offset := congrArg ClaimData.source_offset ha
  unfold dedupKey
  rw [h1]

/-- Stable insertion preserves pointwise dropId-equality. -/
theorem insertByKey_forall₂ {c c' : Claim} (hc : dropId c = dropId c') :
    ∀ {l l' : List Claim}, List.Forall₂ (fun a b => dropId a = dropId b) l l' →
      List.Forall₂ (fun a b => dropId a = dropId b) (insertByKey c l) (insertByKey c' l') := by
  intro l l' h
  induction h with
  | nil => exact List.Forall₂.cons hc List.Forall₂.nil
  | @cons a b as bs hab hrest ih =>
    unfold insertByKey
    rw [dedupKey_congr hc, dedupKey_congr hab]
    split
    · exact List.Forall₂.cons hc (List.Forall₂.cons hab hrest)
    · exact List.Forall₂.cons hab ih

/-- The stable sort preserves pointwise dropId-equality. -/
theorem sortClaims_forall₂ :
    ∀ {l l' : List Claim}, List.Forall₂ (fun a b => dropId a = dropId b) l l' →
      List.Forall₂ (fun a b => dropId a = dropId b) (sortClaims l) (sortClaims l') := by
  intro l l' h
  induction h with
  | nil => exact List.Forall₂.nil
  | cons hab _ ih => exact insertByKey_forall₂ hab ih

/-- The overlap test against pointwise dropId-equal kept lists agrees. -/
theorem any_overlap_congr {c c' : Claim} (hc : dropId c = dropId c') :
    ∀ {acc acc' : List Claim}, List.Forall₂ (fun a b => dropId a = dropId b) acc acc' →
      acc.any (fun e => claimsOverlap c e) = acc'.any (fun e => claimsOverlap c' e) := by
  intro acc acc' h
  induction h with
  | nil => rfl
  | cons hab _ ih =>
    simp only [List.any_cons, claimsOverlap_congr hc hab, ih]

/-- The dedup loop preserves pointwise dropId-equality. -/
theorem dedupGo_forall₂ :
    ∀ {l l' : List Claim}, List.Forall₂ (fun a b => dropId a = dropId b) l l' →
      ∀ {acc acc' : List Claim}, List.Forall₂ (fun a b => dropId a = dropId b) acc acc' →
      List.Forall₂ (fun a b => dropId a = dropId b) (dedupGo l acc) (dedupGo l' acc') := by
  intro l l' h
  induction h with
  | nil =>
    intro acc acc' hacc
    exact hacc
  | @cons a b as bs hab hrest ih =>
    intro acc acc' hacc
    unfold dedupGo
    rw [any_overlap_congr hab hacc]
    split
    · exact ih hacc
    · exact ih (List.rel_append hacc (List.Forall₂.cons hab List.Forall₂.nil))

/-- The claim-construction loop consumes the two id streams in lockstep and
differs only in the ids it stores. -/
theorem matchesToClaimsAux_forall₂ (ids1 ids2 : Nat → String) (text : List Char) :
    ∀ (ms : List PatternMatch) (seen : List (List Char)) (k : Nat),
      List.Forall₂ (fun a b => dropId a = dropId b)
        (matchesToClaimsAux ids1 text ms seen k)
        (matchesToClaimsAux ids2 text ms seen k) := by
  intro ms
  induction ms with
  | nil =>
    intro seen k
    exact List.Forall₂.nil
  | cons m rest ih =>
    intro seen k
    rw [matchesToClaimsAux_cons, matchesToClaimsAux_cons]
    split
    · exact ih seen k
    · split
      · exact ih _ k
      · exact List.Forall₂.cons rfl (ih _ (k + 1))

/-- C9 (amended): extraction is deterministic in everything except the
uuid4-generated claim ids — for any two id streams, the two runs return
claim lists of the same length that agree element-wise on text, type,
confidence and source span. -/
theorem C9_deterministic_modulo_ids (ids1 ids2 : Nat → String) (text : List Char)
    (ms : List PatternMatch) :
    (extractFromMatches ids1 text ms).map dropId =
      (extractFromMatches ids2 text ms).map dropId ∧
    (extractFromMatches ids1 text ms).length =
      (extractFromMatches ids2 text ms).length := by
  have h : List.Forall₂ (fun a b => dropId a = dropId b)
      (extractFromMatches ids1 text ms) (extractFromMatches ids2 text ms) := by
    unfold extractFromMatches deduplicateClaims matchesToClaims
    exact dedupGo_forall₂
      (sortClaims_forall₂ (matchesToClaimsAux_forall₂ ids1 ids2 text ms [] 0))
      List.Forall₂.nil
  exact ⟨forall₂_dropId_map h, h.length_eq⟩

/-- Counterexample to C9 as stated: the claim ids come from uuid.uuid4(),
whose values differ between calls, so two runs on the identical text (modelled
by two different id streams, as uuid4 yields fresh values on each call) return
lists that are not element-wise equal — even though the run is non-empty and
both runs agree after erasing ids. -/
theorem C9_counterexample :
    (∀ m ∈ [(⟨6, 23, "is the capital of".toList, ClaimType.factual⟩ : PatternMatch)],
      ValidMatch "Paris is the capital of France today.".toList m) ∧
    (extractFromMatches (fun _ => "uuid-run-1")
      "Paris is the capital of France today.".toList
      [⟨6, 23, "is the capital of".toList, ClaimType.factual⟩]).length = 1 ∧
    extractFromMatches (fun _ => "uuid-run-1")
        "Paris is the capital of France today.".toList
        [⟨6, 23, "is the capital of".toList, ClaimType.factual⟩] ≠
      extractFromMatches (fun _ => "uuid-run-2")
        "Paris is the capital of France today.".toList
        [⟨6, 23, "is the capital of".toList, ClaimType.factual⟩] := by
  refine ⟨by decide, by decide, by decide⟩

end FactCheck
